import Mathlib

/- Shallow embedding of the smoital Mars-calendar library (src/date.rs,
   src/schedule.rs, src/year.rs, src/constants.rs).

   Modelling conventions:
   * Rust `f64` values are modelled by exact rationals (ℚ).  Every
     claim-relevant computation keeps all intermediate values exactly
     representable in f64 (integers far below 2^53 and small exact sums),
     so the rational model and the binary floating-point program agree on
     the claimed facts.
   * Machine-integer casts and arithmetic (`as i32`, i32 ops, `as u32`)
     are modelled with two-complement wrapping, written explicitly with
     `% 2 ^ 32` (Rust release semantics; the casts themselves wrap in every
     profile).
   * `chrono::FixedOffset` is represented by its local-minus-utc seconds;
     the fallible constructors `east_opt` / `west_opt` return `Option ℤ`,
     and a `None` that the Rust code would `unwrap` models a panic. -/

/-- Two-complement wrap of an integer into the i32 range, modelling Rust
`as i32` casts and wrapping i32 arithmetic. -/
def wrap32 (z : ℤ) : ℤ := (z + 2 ^ 31) % 2 ^ 32 - 2 ^ 31

/-- chrono `FixedOffset::east_opt`: succeeds iff the seconds are strictly
between -86400 and 86400; the offset stores the seconds themselves. -/
def east_opt (secs : ℤ) : Option ℤ :=
  if -86400 < secs ∧ secs < 86400 then some secs else none

/-- chrono `FixedOffset::west_opt`: same bound check, the stored
local-minus-utc value is the negated argument. -/
def west_opt (secs : ℤ) : Option ℤ :=
  if -86400 < secs ∧ secs < 86400 then some (-secs) else none

/-- Truncation toward zero, modelling Rust's f64-to-i32 `as` conversion on
in-range values. -/
def ratTrunc (x : ℚ) : ℤ := if 0 ≤ x then ⌊x⌋ else ⌈x⌉

/-- Rust `f64::round`: round to the nearest integer, halves away from zero. -/
def rustRound (x : ℚ) : ℚ := if 0 ≤ x then ((⌊x + 1/2⌋ : ℤ) : ℚ) else ((⌈x - 1/2⌉ : ℤ) : ℚ)

/-- Rust `f64::fract`: the part after truncation toward zero. -/
def rustFract (x : ℚ) : ℚ := x - ratTrunc x

/-- constants.rs: C1_SECONDS = 85.0. -/
def C1_SECONDS : ℚ := 85

/-- constants.rs: C2 = 4.51. -/
def C2 : ℚ := 451/100

/-- constants.rs: C3 = 1.54. -/
def C3 : ℚ := 154/100

/-- constants.rs: C4 = 35.8. -/
def C4 : ℚ := 358/10

/-- HeuristicSchedule::round_40min: `(tz / 40.0).round() * 40.0`. -/
def round_40min (tz : ℚ) : ℚ := rustRound (tz / 40) * 40

/-- First loop of HeuristicSchedule::wrap_24hr: `while t <= -720 { t += 1440 }`. -/
def wrapUp (t : ℚ) : ℚ :=
  if t ≤ -720 then wrapUp (t + 1440) else t
termination_by (⌈-t⌉).toNat
decreasing_by
  have h1 : ⌈-(t + 1440)⌉ = ⌈-t⌉ - 1440 := by
    rw [show -(t + 1440) = -t - ((1440 : ℤ) : ℚ) by push_cast; ring]
    exact Int.ceil_sub_int (-t) 1440
  have h2 : (720 : ℤ) ≤ ⌈-t⌉ := by
    have ha : (720 : ℚ) ≤ -t := by linarith
    have hb : (720 : ℚ) ≤ ((⌈-t⌉ : ℤ) : ℚ) := ha.trans (Int.le_ceil (-t))
    exact_mod_cast hb
  omega

/-- Second loop of HeuristicSchedule::wrap_24hr: `while t > 720 { t -= 1440 }`. -/
def wrapDown (t : ℚ) : ℚ :=
  if 720 < t then wrapDown (t - 1440) else t
termination_by (⌈t⌉).toNat
decreasing_by
  have h1 : ⌈t - 1440⌉ = ⌈t⌉ - 1440 := by
    rw [show t - 1440 = t - ((1440 : ℤ) : ℚ) by push_cast; ring]
    exact Int.ceil_sub_int t 1440
  have h2 : (720 : ℤ) < ⌈t⌉ := by
    have ha : (720 : ℚ) < ((⌈t⌉ : ℤ) : ℚ) := lt_of_lt_of_le (by linarith) (Int.le_ceil t)
    exact_mod_cast ha
  omega

/-- HeuristicSchedule::wrap_24hr: run the two loops in program order. -/
def wrap_24hr (tz : ℚ) : ℚ := wrapDown (wrapUp tz)

/-- date.rs: SmoitalDate { year, smonth (0-indexed), day (1-indexed) }. -/
structure SmoitalDate where
  year : ℤ
  smonth : ℕ
  day : ℕ
deriving DecidableEq, Repr

/-- date.rs SmoitalDate::calculate_offset: `760 - 40 * day` minutes (i32
arithmetic with wrapping), converted to seconds and fed to east_opt; the
`unwrap` panic is modelled by `none`. -/
def SmoitalDate.calculate_offset (date : SmoitalDate) : Option ℤ :=
  east_opt (wrap32 (wrap32 (760 - wrap32 (40 * wrap32 (date.day : ℤ))) * 60))

/-- date.rs SmoitalDate::is_smol_day: `day == 37`. -/
def SmoitalDate.is_smol_day (date : SmoitalDate) : Bool := date.day == 37

/-- schedule.rs trait SmonthSchedule, modelled as a record of its two
required operations (the derived `get_smonth_length` is `smonthLength`
below, exactly the trait's default body, which both variants inherit). -/
structure SmonthSchedule where
  is_smol_smonth : ℕ → Bool
  tz_offset : ℕ → Option ℤ

/-- Trait default SmonthSchedule::get_smonth_length:
`if is_smol_smonth { 37 } else { 36 }`. -/
def smonthLength (is_smol : ℕ → Bool) (smonth_index : ℕ) : ℕ :=
  if is_smol smonth_index then 37 else 36

/-- Mathematical cumulative length of smonths `0..m`: the spec-side
quantity used to state loop invariants and bracket characterizations.  The
actual u32 accumulators of the source are `scanSmonth` (whose running sum
never exceeds its u32 day argument on the domains quantified below) and
`dayIndexSum`, the wrapping accumulator of SmoitalYear::day_of_year. -/
def daysBefore (is_smol : ℕ → Bool) : ℕ → ℕ
  | 0 => 0
  | m + 1 => daysBefore is_smol m + smonthLength is_smol m

/-- The u32 `day_index` accumulator of SmoitalYear::day_of_year:
`day_index += get_smonth_length(idx)` wraps mod 2^32 once the running sum
exceeds u32::MAX (Rust release semantics, as for the other machine-integer
arithmetic in this file). -/
def dayIndexSum (is_smol : ℕ → Bool) : ℕ → ℕ
  | 0 => 0
  | m + 1 => (dayIndexSum is_smol m + smonthLength is_smol m) % 2 ^ 32

/-- The smonth-locating loop of EquatorialSchedule::get_timezone_offset:
`while current_day_sum + len(idx) <= day_of_year { advance }`, returning
the final `(smonth_idx, current_day_sum)`. -/
def scanSmonth (is_smol : ℕ → Bool) (d sum idx : ℕ) : ℕ × ℕ :=
  if sum + smonthLength is_smol idx ≤ d then
    scanSmonth is_smol d (sum + smonthLength is_smol idx) (idx + 1)
  else
    (idx, sum)
termination_by d + 1 - sum
decreasing_by
  have hpos : 0 < smonthLength is_smol idx := by unfold smonthLength; split <;> omega
  omega

/-- The loop of SmoitalYear::date_from_day: subtract smonth lengths from the
remainder until it fits, returning `(smonth_idx, remaining + 1)`. -/
def dfdScan (is_smol : ℕ → Bool) (remaining idx : ℕ) : ℕ × ℕ :=
  if remaining < smonthLength is_smol idx then
    (idx, remaining + 1)
  else
    dfdScan is_smol (remaining - smonthLength is_smol idx) (idx + 1)
termination_by remaining
decreasing_by
  have hpos : 0 < smonthLength is_smol idx := by unfold smonthLength; split <;> omega
  omega

/-- schedule.rs EquatorialSchedule: first long smonth index plus the
relative offsets of the 37-day smonths. -/
structure EquatorialSchedule where
  first_long_smonth_index : ℕ
  long_smonth_offsets : List ℕ
deriving DecidableEq, Repr

/-- EquatorialSchedule::default: index 6 with offsets [0,1,3,4,6,8,10]. -/
def EquatorialSchedule.default : EquatorialSchedule :=
  { first_long_smonth_index := 6, long_smonth_offsets := [0, 1, 3, 4, 6, 8, 10] }

/-- EquatorialSchedule::is_smol_smonth: false below the first long index,
otherwise membership of the relative index in the offset list. -/
def EquatorialSchedule.is_smol_smonth (e : EquatorialSchedule) (smonth_index : ℕ) : Bool :=
  if smonth_index < e.first_long_smonth_index then
    false
  else
    e.long_smonth_offsets.contains (smonth_index - e.first_long_smonth_index)

/-- EquatorialSchedule::get_timezone_offset: locate the smonth, compute the
1-based day-of-smonth, pin a 37th day of a 37-day smonth to UTC-12:00, and
otherwise apply `760 - 40 * day_of_smonth` minutes east. -/
def EquatorialSchedule.get_timezone_offset (e : EquatorialSchedule) (day_of_year : ℕ) : Option ℤ :=
  let p := scanSmonth e.is_smol_smonth day_of_year 0 0
  let day_of_smonth := day_of_year - p.2 + 1
  if smonthLength e.is_smol_smonth p.1 = 37 ∧ day_of_smonth = 37 then
    west_opt (12 * 3600)
  else
    east_opt ((760 - 40 * (day_of_smonth : ℤ)) * 60)

/-- View an EquatorialSchedule through the trait record. -/
def EquatorialSchedule.toSchedule (e : EquatorialSchedule) : SmonthSchedule :=
  { is_smol_smonth := e.is_smol_smonth, tz_offset := e.get_timezone_offset }

/-- schedule.rs HeuristicSchedule: the natural timezone start and the frozen
Smol-day indices derived at construction time. -/
structure HeuristicSchedule where
  natural_tz_start : ℚ
  smol_dates : List ℕ
deriving DecidableEq, Repr

/-- HeuristicSchedule::new: derive the smoitus factor, the first long
smonth, and the frozen Smol-day list (pushing `36 * (fls + spacing[n]) + n`
for n in 0..6, discarding negatives); the year argument is unused. -/
def HeuristicSchedule.new (_year : ℤ) (natural_tz_min : ℚ) : HeuristicSchedule :=
  let raw_start := natural_tz_min + C1_SECONDS / 60
  let smoitus_factor := rustFract (raw_start / 40 + 1/2)
  let fls_val := C2 + smoitus_factor * C3 + 0 / C4
  let first_long_smonth : ℤ := ⌊fls_val⌋
  let spacings : List ℤ := [1, 2, 4, 5, 7, 9, 11]
  let smol_dates := (List.range 6).filterMap fun n =>
    (spacings.get? n).bind fun s =>
      let date_idx := 36 * (first_long_smonth + s) + (n : ℤ)
      if 0 ≤ date_idx then some date_idx.toNat else none
  { natural_tz_start := natural_tz_min, smol_dates := smol_dates }

/-- HeuristicSchedule::get_timezone_offset: Smol-day membership pins the
offset to UTC-12:00; otherwise apply the start-offset formula, adjusting by
40 minutes per elapsed non-Smol day, with the `day_of_year as i32` cast,
the i32 subtraction and the f64-to-i32 conversion modelled faithfully. -/
def HeuristicSchedule.get_timezone_offset (h : HeuristicSchedule) (day_of_year : ℕ) : Option ℤ :=
  if h.smol_dates.contains day_of_year then
    west_opt (12 * 3600)
  else
    let smol_count : ℤ := wrap32 ((h.smol_dates.filter fun d => d < day_of_year).length : ℤ)
    let start_offset := wrap_24hr (round_40min (h.natural_tz_start + C1_SECONDS / 60))
    let adjustment : ℚ := 40 * ((wrap32 (wrap32 (day_of_year : ℤ) - smol_count) : ℤ) : ℚ)
    let offset := wrap_24hr (start_offset - adjustment)
    east_opt (ratTrunc (offset * 60))

/-- View a HeuristicSchedule through the trait record (is_smol_smonth is
always false for this variant). -/
def HeuristicSchedule.toSchedule (h : HeuristicSchedule) : SmonthSchedule :=
  { is_smol_smonth := fun _ => false, tz_offset := h.get_timezone_offset }

/-- year.rs SmoitalYear: a year number bound to one schedule. -/
structure SmoitalYear where
  year : ℤ
  schedule : SmonthSchedule

/-- SmoitalYear::timezone_offset_for_day: delegate to the schedule. -/
def SmoitalYear.timezone_offset_for_day (Y : SmoitalYear) (day_of_year : ℕ) : Option ℤ :=
  Y.schedule.tz_offset day_of_year

/-- SmoitalYear::day_of_year: reject a mismatched year or a zero day, sum
the smonth lengths before `date.smonth` in the u32 accumulator, reject a
day exceeding that smonth's length, and return the 0-indexed day of year
(the final u32 addition also wraps mod 2^32). -/
def SmoitalYear.day_of_year (Y : SmoitalYear) (date : SmoitalDate) : Option ℕ :=
  if date.year ≠ Y.year ∨ date.day = 0 then
    none
  else if smonthLength Y.schedule.is_smol_smonth date.smonth < date.day then
    none
  else
    some ((dayIndexSum Y.schedule.is_smol_smonth date.smonth + (date.day - 1)) % 2 ^ 32)

/-- SmoitalYear::timezone_offset_for_date: map the schedule query over the
optional day index (the outer `none` is a rejected date; the inner value is
the schedule's possibly-panicking offset query). -/
def SmoitalYear.timezone_offset_for_date (Y : SmoitalYear) (date : SmoitalDate) :
    Option (Option ℤ) :=
  (Y.day_of_year date).map Y.timezone_offset_for_day

/-- SmoitalYear::date_from_day: run the subtracting loop and package the
resulting smonth index and 1-based day. -/
def SmoitalYear.date_from_day (Y : SmoitalYear) (day_of_year : ℕ) : SmoitalDate :=
  let p := dfdScan Y.schedule.is_smol_smonth day_of_year 0
  { year := Y.year, smonth := p.1, day := p.2 }

/-- Modelled from the spec's words for the heuristic offset query (claim
refinement target): exactly UTC-12:00 (that is, -720 minutes) on a frozen
Smol day, and otherwise
`wrap_24hr(start_offset - 40 * (day_of_year - smol_count))` minutes east,
with `smol_count` the number of frozen Smol-day indices strictly below
`day_of_year` and `start_offset = wrap_24hr(round_40min(natural + 85/60))`,
all in exact integer arithmetic. -/
def heuristicSpecOffset (h : HeuristicSchedule) (day_of_year : ℕ) : ℚ :=
  if h.smol_dates.contains day_of_year then
    -720
  else
    let smol_count : ℕ := (h.smol_dates.filter fun d => d < day_of_year).length
    let start_offset := wrap_24hr (round_40min (h.natural_tz_start + C1_SECONDS / 60))
    wrap_24hr (start_offset - 40 * ((day_of_year : ℚ) - (smol_count : ℚ)))

theorem smonthLength_pos (is_smol : ℕ → Bool) (i : ℕ) : 0 < smonthLength is_smol i := by
  unfold smonthLength; split <;> omega

theorem wrapUp_spec (t : ℚ) : -720 < wrapUp t ∧ ∃ k : ℤ, wrapUp t = t + 1440 * k := by
  induction t using wrapUp.induct with
  | case1 t h ih =>
    rw [wrapUp, if_pos h]
    obtain ⟨hlt, k, hk⟩ := ih
    exact ⟨hlt, ⟨k + 1, by rw [hk]; push_cast; ring⟩⟩
  | case2 t h =>
    rw [wrapUp, if_neg h]
    exact ⟨by linarith [not_le.mp h], ⟨0, by ring⟩⟩

theorem wrapDown_spec (t : ℚ) :
    wrapDown t ≤ 720 ∧ (-720 < t → -720 < wrapDown t) ∧
      ∃ k : ℤ, wrapDown t = t + 1440 * k := by
  induction t using wrapDown.induct with
  | case1 t h ih =>
    rw [wrapDown, if_pos h]
    obtain ⟨hle, hgt, k, hk⟩ := ih
    refine ⟨hle, fun _ => hgt (by linarith), ⟨k - 1, by rw [hk]; push_cast; ring⟩⟩
  | case2 t h =>
    rw [wrapDown, if_neg h]
    exact ⟨by linarith [not_lt.mp h], fun hgt => hgt, ⟨0, by ring⟩⟩

theorem wrap_24hr_bounds (t : ℚ) : -720 < wrap_24hr t ∧ wrap_24hr t ≤ 720 := by
  unfold wrap_24hr
  obtain ⟨hup, _⟩ := wrapUp_spec t
  obtain ⟨hle, hgt, _⟩ := wrapDown_spec (wrapUp t)
  exact ⟨hgt hup, hle⟩

theorem wrap_24hr_congr (t : ℚ) : ∃ k : ℤ, wrap_24hr t = t + 1440 * k := by
  unfold wrap_24hr
  obtain ⟨_, k₁, hk₁⟩ := wrapUp_spec t
  obtain ⟨_, _, k₂, hk₂⟩ := wrapDown_spec (wrapUp t)
  exact ⟨k₁ + k₂, by rw [hk₂, hk₁]; push_cast; ring⟩

/-- Evaluation principle: the wrapped value is the unique representative of
`t` mod 1440 inside the interval (-720, 720]. -/
theorem wrap_24hr_eq (t y : ℚ) (k : ℤ) (hy : y = t + 1440 * k)
    (h1 : -720 < y) (h2 : y ≤ 720) : wrap_24hr t = y := by
  obtain ⟨k', hk'⟩ := wrap_24hr_congr t
  obtain ⟨hb1, hb2⟩ := wrap_24hr_bounds t
  have hdiff : wrap_24hr t - y = 1440 * ((k' : ℚ) - k) := by
    rw [hk', hy]; ring
  have hlt : |wrap_24hr t - y| < 1440 := by
    rw [abs_lt]; constructor <;> linarith
  have hkk : ((k' - k : ℤ) : ℚ) = 0 := by
    by_contra hne
    have h1' : (1 : ℚ) ≤ |((k' - k : ℤ) : ℚ)| := by
      rw [show ((k' - k : ℤ) : ℚ) = ((k' - k : ℤ) : ℚ) from rfl, ← Int.cast_abs]
      exact_mod_cast Int.one_le_abs (by exact_mod_cast fun h0 => hne (by rw [h0]; norm_num))
    have : |wrap_24hr t - y| = 1440 * |((k' - k : ℤ) : ℚ)| := by
      rw [hdiff, abs_mul, abs_of_pos]
      · push_cast; ring_nf
      · norm_num
    nlinarith [abs_nonneg (((k' - k : ℤ) : ℚ))]
  have : (k' : ℚ) = k := by push_cast at hkk; linarith
  rw [hk', hy, this]

theorem wrap32_eq_self (z : ℤ) (h1 : -2 ^ 31 ≤ z) (h2 : z < 2 ^ 31) : wrap32 z = z := by
  unfold wrap32; omega

theorem ratTrunc_intCast (n : ℤ) : ratTrunc ((n : ℤ) : ℚ) = n := by
  unfold ratTrunc
  split
  · exact Int.floor_intCast n
  · exact Int.ceil_intCast n

theorem ratTrunc_range (x : ℚ) (h1 : -43200 < x) (h2 : x ≤ 43200) :
    -43200 ≤ ratTrunc x ∧ ratTrunc x ≤ 43200 := by
  unfold ratTrunc
  split
  case isTrue h =>
    constructor
    · have : (0 : ℤ) ≤ ⌊x⌋ := Int.floor_nonneg.mpr h
      omega
    · have : ⌊x⌋ ≤ ⌊(43200 : ℚ)⌋ := Int.floor_le_floor h2
      simpa using this
  case isFalse h =>
    constructor
    · have hx : (-43200 : ℚ) ≤ ((⌈x⌉ : ℤ) : ℚ) := le_trans (le_of_lt h1) (Int.le_ceil x)
      exact_mod_cast hx
    · have : ⌈x⌉ ≤ ⌈(0 : ℚ)⌉ := Int.ceil_le_ceil (le_of_not_le h)
      simp at this
      omega

theorem round_40min_int (x : ℚ) : ∃ a : ℤ, round_40min x = 40 * (a : ℚ) := by
  unfold round_40min rustRound
  split
  · exact ⟨⌊x / 40 + 1/2⌋, by ring⟩
  · exact ⟨⌈x / 40 - 1/2⌉, by ring⟩

theorem wrap_24hr_mul40 (c : ℤ) : ∃ b : ℤ, wrap_24hr (40 * (c : ℚ)) = 40 * (b : ℚ) := by
  obtain ⟨k, hk⟩ := wrap_24hr_congr (40 * (c : ℚ))
  exact ⟨c + 36 * k, by rw [hk]; push_cast; ring⟩

theorem daysBefore_mono (is_smol : ℕ → Bool) {m n : ℕ} (h : m ≤ n) :
    daysBefore is_smol m ≤ daysBefore is_smol n := by
  induction n with
  | zero =>
    have hm : m = 0 := Nat.le_zero.mp h
    subst hm
    exact le_refl _
  | succ n ih =>
    rcases Nat.lt_or_ge m (n + 1) with hlt | hge
    · have h1 := ih (by omega)
      have hpos := smonthLength_pos is_smol n
      have h2 : daysBefore is_smol (n + 1) = daysBefore is_smol n + smonthLength is_smol n := rfl
      omega
    · have hm : m = n + 1 := by omega
      subst hm
      exact le_refl _

theorem daysBefore_decomp_unique (is_smol : ℕ → Bool) (m₁ d₁ m₂ d₂ : ℕ)
    (h₁ : 1 ≤ d₁) (h₁' : d₁ ≤ smonthLength is_smol m₁)
    (h₂ : 1 ≤ d₂) (h₂' : d₂ ≤ smonthLength is_smol m₂)
    (heq : daysBefore is_smol m₁ + d₁ = daysBefore is_smol m₂ + d₂) :
    m₁ = m₂ ∧ d₁ = d₂ := by
  have hm : m₁ = m₂ := by
    rcases lt_trichotomy m₁ m₂ with hlt | heqm | hgt
    · have hle : daysBefore is_smol (m₁ + 1) ≤ daysBefore is_smol m₂ :=
        daysBefore_mono is_smol (by omega)
      have hd : daysBefore is_smol (m₁ + 1) =
          daysBefore is_smol m₁ + smonthLength is_smol m₁ := rfl
      omega
    · exact heqm
    · have hle : daysBefore is_smol (m₂ + 1) ≤ daysBefore is_smol m₁ :=
        daysBefore_mono is_smol (by omega)
      have hd : daysBefore is_smol (m₂ + 1) =
          daysBefore is_smol m₂ + smonthLength is_smol m₂ := rfl
      omega
  subst hm
  exact ⟨rfl, by omega⟩

theorem scanSmonth_inv (is_smol : ℕ → Bool) (d : ℕ) :
    ∀ fuel sum idx, d + 1 - sum ≤ fuel → sum = daysBefore is_smol idx → sum ≤ d →
      (scanSmonth is_smol d sum idx).2 = daysBefore is_smol (scanSmonth is_smol d sum idx).1 ∧
      (scanSmonth is_smol d sum idx).2 ≤ d ∧
      d < (scanSmonth is_smol d sum idx).2 +
        smonthLength is_smol (scanSmonth is_smol d sum idx).1 := by
  intro fuel
  induction fuel with
  | zero => intro sum idx h1 h2 h3; omega
  | succ n ih =>
    intro sum idx h1 h2 h3
    rw [scanSmonth]
    split
    case isTrue h =>
      have hpos := smonthLength_pos is_smol idx
      exact ih (sum + smonthLength is_smol idx) (idx + 1) (by omega)
        (by simp [daysBefore, h2]) h
    case isFalse h =>
      dsimp only
      exact ⟨h2, h3, by omega⟩

theorem dfdScan_inv (is_smol : ℕ → Bool) :
    ∀ fuel rem idx, rem ≤ fuel →
      1 ≤ (dfdScan is_smol rem idx).2 ∧
      (dfdScan is_smol rem idx).2 ≤ smonthLength is_smol (dfdScan is_smol rem idx).1 ∧
      daysBefore is_smol (dfdScan is_smol rem idx).1 + (dfdScan is_smol rem idx).2 =
        daysBefore is_smol idx + rem + 1 := by
  intro fuel
  induction fuel with
  | zero =>
    intro rem idx h1
    have hrem : rem = 0 := by omega
    subst hrem
    rw [dfdScan]
    have hpos := smonthLength_pos is_smol idx
    rw [if_pos hpos]
    dsimp only
    exact ⟨by omega, by omega, by omega⟩
  | succ n ih =>
    intro rem idx h1
    rw [dfdScan]
    split
    case isTrue h =>
      dsimp only
      exact ⟨by omega, by omega, by omega⟩
    case isFalse h =>
      have hpos := smonthLength_pos is_smol idx
      have hrec := ih (rem - smonthLength is_smol idx) (idx + 1) (by omega)
      refine ⟨hrec.1, hrec.2.1, ?_⟩
      have := hrec.2.2
      simp only [daysBefore] at this
      omega

theorem east_opt_eq_some (s : ℤ) (h1 : -86400 < s) (h2 : s < 86400) :
    east_opt s = some s := by
  unfold east_opt
  rw [if_pos ⟨h1, h2⟩]

theorem west_opt_12h : west_opt (12 * 3600) = some (-43200) := by decide

theorem smonthLength_le (is_smol : ℕ → Bool) (i : ℕ) : smonthLength is_smol i ≤ 37 := by
  unfold smonthLength; split <;> omega

/-- The smonth located by the scanning loop is the unique one whose
cumulative-day bracket contains `d`, so the offset only depends on that
bracket: EquatorialSchedule::get_timezone_offset equals the branch on the
day-of-smonth computed from the bracketing smonth. -/
theorem equatorial_tz_formula (e : EquatorialSchedule) (d m : ℕ)
    (h1 : daysBefore e.is_smol_smonth m ≤ d)
    (h2 : d < daysBefore e.is_smol_smonth (m + 1)) :
    e.get_timezone_offset d =
      if smonthLength e.is_smol_smonth m = 37 ∧ d - daysBefore e.is_smol_smonth m + 1 = 37 then
        some (-43200)
      else
        some ((760 - 40 * ((d - daysBefore e.is_smol_smonth m + 1 : ℕ) : ℤ)) * 60) := by
  obtain ⟨hsum, hle, hlt⟩ :=
    scanSmonth_inv e.is_smol_smonth d (d + 1) 0 0 (by omega) rfl (by omega)
  set p := scanSmonth e.is_smol_smonth d 0 0 with hp
  have hm1 : daysBefore e.is_smol_smonth (m + 1) =
      daysBefore e.is_smol_smonth m + smonthLength e.is_smol_smonth m := rfl
  have hmono1 : daysBefore e.is_smol_smonth p.1 ≤ d := by omega
  have huniq := daysBefore_decomp_unique e.is_smol_smonth
    p.1 (d - daysBefore e.is_smol_smonth p.1 + 1)
    m (d - daysBefore e.is_smol_smonth m + 1)
    (by omega) (by omega) (by omega) (by omega) (by omega)
  have hunf : e.get_timezone_offset d =
      if smonthLength e.is_smol_smonth p.1 = 37 ∧ d - p.2 + 1 = 37 then
        west_opt (12 * 3600)
      else
        east_opt ((760 - 40 * ((d - p.2 + 1 : ℕ) : ℤ)) * 60) := rfl
  rw [hunf, hsum, huniq.1]
  have hdos1 : 1 ≤ d - daysBefore e.is_smol_smonth m + 1 := by omega
  have hdos2 : d - daysBefore e.is_smol_smonth m + 1 ≤ 37 := by
    have hl37 := smonthLength_le e.is_smol_smonth m
    omega
  split
  · exact west_opt_12h
  · apply east_opt_eq_some
    · have : ((d - daysBefore e.is_smol_smonth m + 1 : ℕ) : ℤ) ≤ 37 := by exact_mod_cast hdos2
      omega
    · have : (1 : ℤ) ≤ ((d - daysBefore e.is_smol_smonth m + 1 : ℕ) : ℤ) := by
        exact_mod_cast hdos1
      omega

/-- EquatorialSchedule::get_timezone_offset never panics and always yields
an offset whose magnitude stays below one day. -/
theorem equatorial_total (e : EquatorialSchedule) (d : ℕ) :
    ∃ z : ℤ, e.get_timezone_offset d = some z ∧ -86400 < z ∧ z < 86400 := by
  obtain ⟨hsum, hle, hlt⟩ :=
    scanSmonth_inv e.is_smol_smonth d (d + 1) 0 0 (by omega) rfl (by omega)
  set p := scanSmonth e.is_smol_smonth d 0 0 with hp
  have hm1 : daysBefore e.is_smol_smonth (p.1 + 1) =
      daysBefore e.is_smol_smonth p.1 + smonthLength e.is_smol_smonth p.1 := rfl
  have hform := equatorial_tz_formula e d p.1 (by omega) (by omega)
  rw [hform]
  have hdos1 : 1 ≤ d - daysBefore e.is_smol_smonth p.1 + 1 := by omega
  have hdos2 : d - daysBefore e.is_smol_smonth p.1 + 1 ≤ 37 := by
    have hl37 := smonthLength_le e.is_smol_smonth p.1
    omega
  split
  · exact ⟨-43200, rfl, by omega, by omega⟩
  · refine ⟨_, rfl, ?_, ?_⟩
    · have : ((d - daysBefore e.is_smol_smonth p.1 + 1 : ℕ) : ℤ) ≤ 37 := by exact_mod_cast hdos2
      omega
    · have : (1 : ℤ) ≤ ((d - daysBefore e.is_smol_smonth p.1 + 1 : ℕ) : ℤ) := by
        exact_mod_cast hdos1
      omega

theorem heuristic_gtz_member (h : HeuristicSchedule) (d : ℕ)
    (hmem : h.smol_dates.contains d = true) :
    h.get_timezone_offset d = some (-43200) := by
  unfold HeuristicSchedule.get_timezone_offset
  rw [if_pos hmem]
  exact west_opt_12h

theorem heuristic_gtz_nonmember (h : HeuristicSchedule) (d : ℕ)
    (hmem : ¬ h.smol_dates.contains d = true) :
    h.get_timezone_offset d =
      east_opt (ratTrunc (wrap_24hr
        (wrap_24hr (round_40min (h.natural_tz_start + C1_SECONDS / 60)) -
          40 * ((wrap32 (wrap32 (d : ℤ) -
            wrap32 (((h.smol_dates.filter fun x => x < d).length : ℤ))) : ℤ) : ℚ)) * 60)) := by
  unfold HeuristicSchedule.get_timezone_offset
  rw [if_neg hmem]

theorem heuristicSpecOffset_member (h : HeuristicSchedule) (d : ℕ)
    (hmem : h.smol_dates.contains d = true) : heuristicSpecOffset h d = -720 := by
  unfold heuristicSpecOffset
  rw [if_pos hmem]

theorem heuristicSpecOffset_nonmember (h : HeuristicSchedule) (d : ℕ)
    (hmem : ¬ h.smol_dates.contains d = true) :
    heuristicSpecOffset h d =
      wrap_24hr (wrap_24hr (round_40min (h.natural_tz_start + C1_SECONDS / 60)) -
        40 * ((d : ℚ) - (((h.smol_dates.filter fun x => x < d).length : ℕ) : ℚ))) := by
  unfold heuristicSpecOffset
  rw [if_neg hmem]

/-- As long as the day index fits in i32 and the frozen Smol list is small,
the coded heuristic offset (seconds) is exactly 60 times the spec formula
(minutes). -/
theorem heuristic_offset_spec (h : HeuristicSchedule) (d : ℕ)
    (hd : (d : ℤ) < 2 ^ 31)
    (hc : (h.smol_dates.filter fun x => x < d).length ≤ 6) :
    ∃ z : ℤ, h.get_timezone_offset d = some z ∧
      (z : ℚ) = 60 * heuristicSpecOffset h d := by
  by_cases hmem : h.smol_dates.contains d = true
  · refine ⟨-43200, heuristic_gtz_member h d hmem, ?_⟩
    rw [heuristicSpecOffset_member h d hmem]
    norm_num
  · rw [heuristic_gtz_nonmember h d hmem, heuristicSpecOffset_nonmember h d hmem]
    set c : ℕ := (h.smol_dates.filter fun x => x < d).length with hcdef
    have hw1 : wrap32 (c : ℤ) = (c : ℤ) := wrap32_eq_self _ (by omega) (by omega)
    have hw2 : wrap32 (d : ℤ) = (d : ℤ) := wrap32_eq_self _ (by omega) (by omega)
    have hw3 : wrap32 ((d : ℤ) - (c : ℤ)) = (d : ℤ) - (c : ℤ) :=
      wrap32_eq_self _ (by omega) (by omega)
    rw [hw2, hw1, hw3]
    obtain ⟨a, ha⟩ := round_40min_int (h.natural_tz_start + C1_SECONDS / 60)
    rw [ha]
    obtain ⟨a', ha'⟩ := wrap_24hr_mul40 a
    rw [ha']
    have hrw : (40 : ℚ) * (a' : ℚ) - 40 * (((d : ℤ) - (c : ℤ) : ℤ) : ℚ) =
        40 * ((a' - (d : ℤ) + (c : ℤ) : ℤ) : ℚ) := by push_cast; ring
    have hrw2 : (40 : ℚ) * (a' : ℚ) - 40 * ((d : ℚ) - ((c : ℕ) : ℚ)) =
        40 * ((a' - (d : ℤ) + (c : ℤ) : ℤ) : ℚ) := by push_cast; ring
    rw [hrw, hrw2]
    obtain ⟨b, hb⟩ := wrap_24hr_mul40 (a' - (d : ℤ) + (c : ℤ))
    rw [hb]
    obtain ⟨hb1, hb2⟩ := wrap_24hr_bounds (40 * ((a' - (d : ℤ) + (c : ℤ) : ℤ) : ℚ))
    rw [hb] at hb1 hb2
    have hblo : -18 ≤ b := by
      have : (-18 : ℚ) ≤ (b : ℚ) := by linarith
      exact_mod_cast this
    have hbhi : b ≤ 18 := by
      have : (b : ℚ) ≤ 18 := by linarith
      exact_mod_cast this
    have htr : ratTrunc (40 * (b : ℚ) * 60) = 2400 * b := by
      rw [show (40 : ℚ) * (b : ℚ) * 60 = ((2400 * b : ℤ) : ℚ) by push_cast; ring]
      exact ratTrunc_intCast _
    rw [htr]
    refine ⟨2400 * b, east_opt_eq_some _ (by omega) (by omega), ?_⟩
    push_cast
    ring

/-- HeuristicSchedule::get_timezone_offset never panics and always yields
an offset whose magnitude stays below one day. -/
theorem heuristic_total (h : HeuristicSchedule) (d : ℕ) :
    ∃ z : ℤ, h.get_timezone_offset d = some z ∧ -86400 < z ∧ z < 86400 := by
  by_cases hmem : h.smol_dates.contains d = true
  · exact ⟨-43200, heuristic_gtz_member h d hmem, by omega, by omega⟩
  · rw [heuristic_gtz_nonmember h d hmem]
    set X : ℚ :=
      wrap_24hr (round_40min (h.natural_tz_start + C1_SECONDS / 60)) -
        40 * ((wrap32 (wrap32 (d : ℤ) -
          wrap32 (((h.smol_dates.filter fun x => x < d).length : ℤ))) : ℤ) : ℚ) with hX
    obtain ⟨hb1, hb2⟩ := wrap_24hr_bounds X
    obtain ⟨hr1, hr2⟩ := ratTrunc_range (wrap_24hr X * 60) (by linarith) (by linarith)
    exact ⟨_, east_opt_eq_some _ (by omega) (by omega), by omega, by omega⟩

theorem smol_dates_len_le (y : ℤ) (q : ℚ) :
    (HeuristicSchedule.new y q).smol_dates.length ≤ 6 := by
  unfold HeuristicSchedule.new
  dsimp only
  refine le_trans (List.length_filterMap_le _ _) ?_
  simp

theorem H0_dates : (HeuristicSchedule.new 2030 0).smol_dates = [216, 253, 326, 363, 436, 509] := by
  unfold HeuristicSchedule.new
  dsimp only
  have hfr : rustFract (((0 : ℚ) + C1_SECONDS / 60) / 40 + 1/2) = 257/480 := by
    unfold rustFract ratTrunc
    rw [if_pos (by norm_num [C1_SECONDS])]
    norm_num [C1_SECONDS]
  rw [hfr]
  have hfls : ⌊C2 + (257/480 : ℚ) * C3 + 0 / C4⌋ = (5 : ℤ) := by
    norm_num [C2, C3, C4]
  rw [hfls]
  decide

theorem H0_nat : (HeuristicSchedule.new 2030 0).natural_tz_start = 0 := rfl

theorem H0_start : wrap_24hr (round_40min ((0 : ℚ) + C1_SECONDS / 60)) = 0 := by
  have h1 : round_40min ((0 : ℚ) + C1_SECONDS / 60) = 0 := by
    unfold round_40min rustRound
    rw [if_pos (by norm_num [C1_SECONDS])]
    norm_num [C1_SECONDS]
  rw [h1]
  exact wrap_24hr_eq 0 0 0 (by norm_num) (by norm_num) (by norm_num)

/-- Closed-form evaluation of the heuristic offset for the reference
schedule `new(2030, 0.0)` at a non-Smol day: supply the Smol count, the
wrapped value and its 1440-multiple certificate. -/
theorem H0_offset_eval (d : ℕ) (hd : (d : ℤ) < 2 ^ 31)
    (hmem : ¬ (HeuristicSchedule.new 2030 0).smol_dates.contains d = true)
    (c : ℕ) (hc : ((HeuristicSchedule.new 2030 0).smol_dates.filter fun x => x < d).length = c)
    (hc6 : c ≤ 6) (v : ℚ) (k : ℤ)
    (hv : (0 : ℚ) - 40 * ((d : ℚ) - (c : ℚ)) + 1440 * (k : ℚ) = v)
    (h1 : -720 < v) (h2 : v ≤ 720) (z : ℤ) (hz : ((z : ℤ) : ℚ) = 60 * v) :
    (HeuristicSchedule.new 2030 0).get_timezone_offset d = some z := by
  obtain ⟨z', hcode, hzq⟩ :=
    heuristic_offset_spec (HeuristicSchedule.new 2030 0) d hd (by rw [hc]; exact hc6)
  have hspec := heuristicSpecOffset_nonmember (HeuristicSchedule.new 2030 0) d hmem
  rw [H0_nat, H0_start, hc] at hspec
  rw [hspec] at hzq
  have hwrap : wrap_24hr (0 - 40 * ((d : ℚ) - (c : ℚ))) = v :=
    wrap_24hr_eq _ v k (by linarith) h1 h2
  rw [hwrap] at hzq
  have hzz : z' = z := by
    have hcast : ((z' : ℤ) : ℚ) = ((z : ℤ) : ℚ) := by rw [hzq, hz]
    exact_mod_cast hcast
  rw [hcode, hzz]

/-- C1: for every day_of_year in [0, 667], EquatorialSchedule::get_timezone_offset
locates the containing smonth by accumulated smonth lengths; on the 37th day
of a 37-day smonth it returns exactly UTC-12:00 (-43200 s) and otherwise
760 - 40 * day_of_smonth minutes east; in particular days 0, 216, 251, 252,
253 give +720, +720, -680, -720, +720 minutes. -/
theorem smoital_claim_C1 :
    (∀ d : ℕ, d ≤ 667 → ∀ m : ℕ,
      daysBefore EquatorialSchedule.default.is_smol_smonth m ≤ d →
      d < daysBefore EquatorialSchedule.default.is_smol_smonth (m + 1) →
      EquatorialSchedule.default.get_timezone_offset d =
        if smonthLength EquatorialSchedule.default.is_smol_smonth m = 37 ∧
            d - daysBefore EquatorialSchedule.default.is_smol_smonth m + 1 = 37 then
          some (-43200)
        else
          some ((760 - 40 *
            ((d - daysBefore EquatorialSchedule.default.is_smol_smonth m + 1 : ℕ) : ℤ)) * 60)) ∧
    EquatorialSchedule.default.get_timezone_offset 0 = some (720 * 60) ∧
    EquatorialSchedule.default.get_timezone_offset 216 = some (720 * 60) ∧
    EquatorialSchedule.default.get_timezone_offset 251 = some (-680 * 60) ∧
    EquatorialSchedule.default.get_timezone_offset 252 = some (-720 * 60) ∧
    EquatorialSchedule.default.get_timezone_offset 253 = some (720 * 60) := by
  refine ⟨fun d _ m h1 h2 => equatorial_tz_formula _ d m h1 h2, ?_, ?_, ?_, ?_, ?_⟩
  · rw [equatorial_tz_formula _ 0 0 (by decide) (by decide)]; decide
  · rw [equatorial_tz_formula _ 216 6 (by decide) (by decide)]; decide
  · rw [equatorial_tz_formula _ 251 6 (by decide) (by decide)]; decide
  · rw [equatorial_tz_formula _ 252 6 (by decide) (by decide)]; decide
  · rw [equatorial_tz_formula _ 253 7 (by decide) (by decide)]; decide

theorem smoital_claim_C1_witness :
    EquatorialSchedule.default.get_timezone_offset 251 = some (-680 * 60) := by
  have h := (smoital_claim_C1.1) 251 (by norm_num) 6 (by decide) (by decide)
  rw [h]; decide

/-- C2 (amended): for every day_of_year below 2^31 (where the `as i32` cast
is value-preserving), HeuristicSchedule::get_timezone_offset returns exactly
UTC-12:00 on a frozen Smol day and otherwise
wrap_24hr(start_offset - 40 * (day_of_year - smol_count)) minutes east. -/
theorem smoital_claim_C2 (y : ℤ) (q : ℚ) (d : ℕ) (hd : (d : ℤ) < 2 ^ 31) :
    Option.map (Int.cast : ℤ → ℚ) ((HeuristicSchedule.new y q).get_timezone_offset d) =
      some (60 * heuristicSpecOffset (HeuristicSchedule.new y q) d) := by
  obtain ⟨z, hz, hq⟩ := heuristic_offset_spec (HeuristicSchedule.new y q) d hd
    (le_trans (List.length_filter_le _ _) (smol_dates_len_le y q))
  rw [hz]
  simp only [Option.map_some']
  rw [hq]

theorem smoital_claim_C2_witness :
    Option.map (Int.cast : ℤ → ℚ) ((HeuristicSchedule.new 2030 0).get_timezone_offset 217) =
      some (60 * heuristicSpecOffset (HeuristicSchedule.new 2030 0) 217) :=
  smoital_claim_C2 2030 0 217 (by norm_num)

/-- C2 counterexample: at day_of_year = 2^31 + 10 the `day_of_year as i32`
cast wraps, so the coded offset (640 min east) differs from the claimed
formula value (480 min east): the claim is false for unrestricted
day_of_year. -/
theorem smoital_claim_C2_counterexample :
    ¬ (Option.map (Int.cast : ℤ → ℚ)
        ((HeuristicSchedule.new 2030 0).get_timezone_offset 2147483658) =
      some (60 * heuristicSpecOffset (HeuristicSchedule.new 2030 0) 2147483658)) := by
  have hmem : ¬ (HeuristicSchedule.new 2030 0).smol_dates.contains 2147483658 = true := by
    rw [H0_dates]; decide
  have hc : (((HeuristicSchedule.new 2030 0).smol_dates.filter
      fun x => x < 2147483658).length) = 6 := by
    rw [H0_dates]; decide
  have hcode := heuristic_gtz_nonmember (HeuristicSchedule.new 2030 0) 2147483658 hmem
  rw [H0_nat, H0_start, hc] at hcode
  have hw1 : wrap32 ((2147483658 : ℕ) : ℤ) = -2147483638 := by unfold wrap32; decide
  have hw2 : wrap32 ((6 : ℕ) : ℤ) = 6 := by unfold wrap32; decide
  have hw3 : wrap32 ((-2147483638 : ℤ) - 6) = -2147483644 := by unfold wrap32; decide
  rw [hw1, hw2, hw3] at hcode
  have hX : (0 : ℚ) - 40 * (((-2147483644 : ℤ) : ℤ) : ℚ) = 85899345760 := by norm_num
  rw [hX] at hcode
  have hwrap : wrap_24hr (85899345760 : ℚ) = 640 :=
    wrap_24hr_eq _ 640 (-59652323) (by norm_num) (by norm_num) (by norm_num)
  rw [hwrap] at hcode
  have htr : ratTrunc ((640 : ℚ) * 60) = 38400 := by
    rw [show (640 : ℚ) * 60 = ((38400 : ℤ) : ℚ) by norm_num]
    exact ratTrunc_intCast _
  rw [htr, east_opt_eq_some 38400 (by norm_num) (by norm_num)] at hcode
  have hspec := heuristicSpecOffset_nonmember (HeuristicSchedule.new 2030 0) 2147483658 hmem
  rw [H0_nat, H0_start, hc] at hspec
  have hX2 : (0 : ℚ) - 40 * (((2147483658 : ℕ) : ℚ) - ((6 : ℕ) : ℚ)) = -85899346080 := by
    push_cast; norm_num
  rw [hX2] at hspec
  have hwrap2 : wrap_24hr (-85899346080 : ℚ) = 480 :=
    wrap_24hr_eq _ 480 59652324 (by norm_num) (by norm_num) (by norm_num)
  rw [hwrap2] at hspec
  rw [hcode, hspec]
  intro hcontra
  simp only [Option.map_some'] at hcontra
  have hfin : ((38400 : ℤ) : ℚ) = 60 * 480 := Option.some.inj hcontra
  norm_num at hfin

/-- C3: HeuristicSchedule::new(2030, 0.0) freezes the Smol-day set
{216, 253, 326, 363, 436, 509}; the offset on each of them is -12:00, on
day 215 it is +40 minutes and on days 217 and 254 it is 0 minutes. -/
theorem smoital_claim_C3 :
    (HeuristicSchedule.new 2030 0).smol_dates = [216, 253, 326, 363, 436, 509] ∧
    (HeuristicSchedule.new 2030 0).get_timezone_offset 216 = some (-720 * 60) ∧
    (HeuristicSchedule.new 2030 0).get_timezone_offset 253 = some (-720 * 60) ∧
    (HeuristicSchedule.new 2030 0).get_timezone_offset 326 = some (-720 * 60) ∧
    (HeuristicSchedule.new 2030 0).get_timezone_offset 363 = some (-720 * 60) ∧
    (HeuristicSchedule.new 2030 0).get_timezone_offset 436 = some (-720 * 60) ∧
    (HeuristicSchedule.new 2030 0).get_timezone_offset 509 = some (-720 * 60) ∧
    (HeuristicSchedule.new 2030 0).get_timezone_offset 215 = some (40 * 60) ∧
    (HeuristicSchedule.new 2030 0).get_timezone_offset 217 = some 0 ∧
    (HeuristicSchedule.new 2030 0).get_timezone_offset 254 = some 0 := by
  refine ⟨H0_dates, ?_, ?_, ?_, ?_, ?_, ?_, ?_, ?_, ?_⟩
  · exact heuristic_gtz_member _ _ (by rw [H0_dates]; decide)
  · exact heuristic_gtz_member _ _ (by rw [H0_dates]; decide)
  · exact heuristic_gtz_member _ _ (by rw [H0_dates]; decide)
  · exact heuristic_gtz_member _ _ (by rw [H0_dates]; decide)
  · exact heuristic_gtz_member _ _ (by rw [H0_dates]; decide)
  · exact heuristic_gtz_member _ _ (by rw [H0_dates]; decide)
  · exact H0_offset_eval 215 (by norm_num) (by rw [H0_dates]; decide)
      0 (by rw [H0_dates]; decide) (by norm_num)
      40 6 (by push_cast; norm_num) (by norm_num) (by norm_num)
      (40 * 60) (by push_cast; norm_num)
  · exact H0_offset_eval 217 (by norm_num) (by rw [H0_dates]; decide)
      1 (by rw [H0_dates]; decide) (by norm_num)
      0 6 (by push_cast; norm_num) (by norm_num) (by norm_num)
      0 (by push_cast; norm_num)
  · exact H0_offset_eval 254 (by norm_num) (by rw [H0_dates]; decide)
      2 (by rw [H0_dates]; decide) (by norm_num)
      0 7 (by push_cast; norm_num) (by norm_num) (by norm_num)
      0 (by push_cast; norm_num)

theorem dayIndexSum_mod (is_smol : ℕ → Bool) (m : ℕ) :
    dayIndexSum is_smol m = daysBefore is_smol m % 2 ^ 32 := by
  induction m with
  | zero => rfl
  | succ n ih =>
    have hd : daysBefore is_smol (n + 1) =
        daysBefore is_smol n + smonthLength is_smol n := rfl
    have hs : dayIndexSum is_smol (n + 1) =
        (dayIndexSum is_smol n + smonthLength is_smol n) % 2 ^ 32 := rfl
    rw [hs, ih, hd]
    omega

theorem day_of_year_mk (Y : SmoitalYear) (dy : ℤ) (dm dd : ℕ) (h1 : dy = Y.year)
    (h2 : dd ≠ 0) (h3 : dd ≤ smonthLength Y.schedule.is_smol_smonth dm) :
    Y.day_of_year ⟨dy, dm, dd⟩ =
      some ((dayIndexSum Y.schedule.is_smol_smonth dm + (dd - 1)) % 2 ^ 32) := by
  unfold SmoitalYear.day_of_year
  dsimp only
  rw [if_neg (by push_neg; exact ⟨h1, h2⟩), if_neg (by omega)]

theorem day_of_year_mk_small (Y : SmoitalYear) (dy : ℤ) (dm dd : ℕ) (h1 : dy = Y.year)
    (h2 : dd ≠ 0) (h3 : dd ≤ smonthLength Y.schedule.is_smol_smonth dm)
    (h4 : daysBefore Y.schedule.is_smol_smonth dm + (dd - 1) < 2 ^ 32) :
    Y.day_of_year ⟨dy, dm, dd⟩ =
      some (daysBefore Y.schedule.is_smol_smonth dm + (dd - 1)) := by
  rw [day_of_year_mk Y dy dm dd h1 h2 h3, dayIndexSum_mod]
  exact congrArg some (by omega)

theorem eq_default_not_smol (m : ℕ) (h : 17 ≤ m) :
    EquatorialSchedule.default.is_smol_smonth m = false := by
  unfold EquatorialSchedule.is_smol_smonth EquatorialSchedule.default
  dsimp only
  rw [if_neg (by omega)]
  cases hval : ([0, 1, 3, 4, 6, 8, 10] : List ℕ).contains (m - 6)
  · rfl
  · exfalso
    have hm : (m - 6) ∈ ([0, 1, 3, 4, 6, 8, 10] : List ℕ) := by simpa using hval
    simp only [List.mem_cons, List.not_mem_nil, or_false] at hm
    omega

theorem eq_default_daysBefore_closed (m : ℕ) (h : 17 ≤ m) :
    daysBefore EquatorialSchedule.default.is_smol_smonth m = 36 * m + 7 := by
  induction m, h using Nat.le_induction with
  | base => decide
  | succ n hn ih =>
    have hd : daysBefore EquatorialSchedule.default.is_smol_smonth (n + 1) =
        daysBefore EquatorialSchedule.default.is_smol_smonth n +
          smonthLength EquatorialSchedule.default.is_smol_smonth n := rfl
    have hl : smonthLength EquatorialSchedule.default.is_smol_smonth n = 36 := by
      unfold smonthLength
      rw [eq_default_not_smol n hn, if_neg (by simp)]
    rw [hd, ih, hl]
    ring

/-- The u32 day-index accumulator wraps at smonth 119304647 under the
equatorial schedule: the sum 36 * 119304647 + 7 = 2^32 + 3 becomes 3. -/
theorem Y0_wrap_day_of_year :
    (SmoitalYear.mk 2030 EquatorialSchedule.default.toSchedule).day_of_year
      ⟨2030, 119304647, 1⟩ = some 3 := by
  have hY : (SmoitalYear.mk 2030 EquatorialSchedule.default.toSchedule).schedule.is_smol_smonth =
      EquatorialSchedule.default.is_smol_smonth := rfl
  have hlen : smonthLength EquatorialSchedule.default.is_smol_smonth 119304647 = 36 := by
    unfold smonthLength
    rw [eq_default_not_smol 119304647 (by norm_num), if_neg (by simp)]
  rw [day_of_year_mk _ 2030 119304647 1 rfl (by norm_num) (by rw [hY, hlen]; norm_num)]
  rw [hY, dayIndexSum_mod, eq_default_daysBefore_closed 119304647 (by norm_num)]
  norm_num

theorem day_of_year_none_iff (Y : SmoitalYear) (date : SmoitalDate) :
    Y.day_of_year date = none ↔
      (date.year ≠ Y.year ∨ date.day = 0 ∨
        smonthLength Y.schedule.is_smol_smonth date.smonth < date.day) := by
  unfold SmoitalYear.day_of_year
  split_ifs with h1 h2
  · refine iff_of_true rfl ?_
    rcases h1 with h | h
    · exact Or.inl h
    · exact Or.inr (Or.inl h)
  · exact iff_of_true rfl (Or.inr (Or.inr h2))
  · refine iff_of_false (by simp) ?_
    push_neg at h1
    rintro (h | h | h)
    · exact h h1.1
    · exact h1.2 h
    · exact h2 h

/-- C4 (amended): on any SmoitalYear, a date that is valid for the bound
schedule and whose u32 day-index accumulation stays below 2^32 (so the
accumulator does not wrap) round-trips through day_of_year and
date_from_day, and every u32 day index round-trips the other way. -/
theorem smoital_claim_C4 (Y : SmoitalYear) :
    (∀ date : SmoitalDate, date.year = Y.year → 1 ≤ date.day →
      date.day ≤ smonthLength Y.schedule.is_smol_smonth date.smonth →
      daysBefore Y.schedule.is_smol_smonth date.smonth + (date.day - 1) < 2 ^ 32 →
      ∃ n : ℕ, Y.day_of_year date = some n ∧ Y.date_from_day n = date) ∧
    (∀ d : ℕ, d < 2 ^ 32 → Y.day_of_year (Y.date_from_day d) = some d) := by
  constructor
  · rintro ⟨dy, dm, dd⟩ hyear hday1 hday2 hsum
    dsimp only at hyear hday1 hday2 hsum
    refine ⟨daysBefore Y.schedule.is_smol_smonth dm + (dd - 1), ?_, ?_⟩
    · exact day_of_year_mk_small Y dy dm dd hyear (by omega) hday2 hsum
    · obtain ⟨h1, h2, h3⟩ := dfdScan_inv Y.schedule.is_smol_smonth
        (daysBefore Y.schedule.is_smol_smonth dm + (dd - 1))
        (daysBefore Y.schedule.is_smol_smonth dm + (dd - 1)) 0 (le_refl _)
      set p := dfdScan Y.schedule.is_smol_smonth
        (daysBefore Y.schedule.is_smol_smonth dm + (dd - 1)) 0 with hp
      have h0 : daysBefore Y.schedule.is_smol_smonth 0 = 0 := rfl
      obtain ⟨hm, hdq⟩ := daysBefore_decomp_unique Y.schedule.is_smol_smonth
        p.1 p.2 dm dd h1 h2 hday1 hday2 (by omega)
      show (⟨Y.year, p.1, p.2⟩ : SmoitalDate) = ⟨dy, dm, dd⟩
      rw [hm, hdq, hyear]
  · intro d hd32
    obtain ⟨h1, h2, h3⟩ := dfdScan_inv Y.schedule.is_smol_smonth d d 0 (le_refl d)
    set p := dfdScan Y.schedule.is_smol_smonth d 0 with hp
    have h0 : daysBefore Y.schedule.is_smol_smonth 0 = 0 := rfl
    have hdf : Y.date_from_day d = ⟨Y.year, p.1, p.2⟩ := rfl
    rw [hdf, day_of_year_mk Y Y.year p.1 p.2 rfl (by omega) h2, dayIndexSum_mod]
    exact congrArg some (by omega)

theorem smoital_claim_C4_witness :
    ∃ n : ℕ,
      (SmoitalYear.mk 2030 EquatorialSchedule.default.toSchedule).day_of_year
          ⟨2030, 6, 37⟩ = some n ∧
        (SmoitalYear.mk 2030 EquatorialSchedule.default.toSchedule).date_from_day n =
          ⟨2030, 6, 37⟩ :=
  (smoital_claim_C4 (SmoitalYear.mk 2030 EquatorialSchedule.default.toSchedule)).1
    ⟨2030, 6, 37⟩ rfl (by norm_num) (by decide) (by decide)

/-- C4 counterexample: the date (2030, smonth 119304647, day 1) is valid
for the equatorial schedule (its smonth has 36 days), but the u32 day-index
sum 36 * 119304647 + 7 = 2^32 + 3 wraps: day_of_year returns Some 3, and
date_from_day 3 gives smonth 0, day 4 — the round trip fails (debug builds
panic on the add overflow instead). -/
theorem smoital_claim_C4_counterexample :
    1 ≤ (⟨2030, 119304647, 1⟩ : SmoitalDate).day ∧
    (⟨2030, 119304647, 1⟩ : SmoitalDate).day ≤
      smonthLength EquatorialSchedule.default.is_smol_smonth 119304647 ∧
    (SmoitalYear.mk 2030 EquatorialSchedule.default.toSchedule).day_of_year
      ⟨2030, 119304647, 1⟩ = some 3 ∧
    ¬ (SmoitalYear.mk 2030 EquatorialSchedule.default.toSchedule).date_from_day 3 =
      (⟨2030, 119304647, 1⟩ : SmoitalDate) := by
  have hlen : smonthLength EquatorialSchedule.default.is_smol_smonth 119304647 = 36 := by
    unfold smonthLength
    rw [eq_default_not_smol 119304647 (by norm_num), if_neg (by simp)]
  have hsc : dfdScan EquatorialSchedule.default.is_smol_smonth 3 0 = (0, 4) := by
    rw [dfdScan, if_pos (by decide)]
  have hdf : (SmoitalYear.mk 2030 EquatorialSchedule.default.toSchedule).date_from_day 3 =
      ⟨2030, 0, 4⟩ := by
    show (⟨2030, (dfdScan EquatorialSchedule.default.is_smol_smonth 3 0).1,
      (dfdScan EquatorialSchedule.default.is_smol_smonth 3 0).2⟩ : SmoitalDate) = ⟨2030, 0, 4⟩
    rw [hsc]
  refine ⟨by norm_num, ?_, Y0_wrap_day_of_year, ?_⟩
  · show (1 : ℕ) ≤ smonthLength EquatorialSchedule.default.is_smol_smonth 119304647
    rw [hlen]
    norm_num
  · rw [hdf]
    decide

/-- C5: EquatorialSchedule::is_smol_smonth holds exactly when the index is
at least 6 with relative offset in {0,1,3,4,6,8,10}, i.e. exactly on
{6,7,9,10,12,14,16}; it is false below 6 and above 16, and the smonth
length is 37 exactly there, 36 elsewhere. -/
theorem smoital_claim_C5 (idx : ℕ) :
    (EquatorialSchedule.default.is_smol_smonth idx = true ↔
      6 ≤ idx ∧ (idx - 6) ∈ ([0, 1, 3, 4, 6, 8, 10] : List ℕ)) ∧
    (EquatorialSchedule.default.is_smol_smonth idx = true ↔
      idx ∈ ([6, 7, 9, 10, 12, 14, 16] : List ℕ)) ∧
    (idx < 6 → EquatorialSchedule.default.is_smol_smonth idx = false) ∧
    (16 < idx → EquatorialSchedule.default.is_smol_smonth idx = false) ∧
    (smonthLength EquatorialSchedule.default.is_smol_smonth idx =
      if idx ∈ ([6, 7, 9, 10, 12, 14, 16] : List ℕ) then 37 else 36) := by
  have hbase : EquatorialSchedule.default.is_smol_smonth idx = true ↔
      6 ≤ idx ∧ (idx - 6) ∈ ([0, 1, 3, 4, 6, 8, 10] : List ℕ) := by
    unfold EquatorialSchedule.is_smol_smonth EquatorialSchedule.default
    dsimp only
    split
    case isTrue h =>
      constructor
      · intro hcontra; exact absurd hcontra (by simp)
      · rintro ⟨h6, _⟩; omega
    case isFalse h =>
      constructor
      · intro hm
        refine ⟨by omega, ?_⟩
        simpa using hm
      · rintro ⟨_, hm⟩
        simpa using hm
  have hmem2 : (6 ≤ idx ∧ (idx - 6) ∈ ([0, 1, 3, 4, 6, 8, 10] : List ℕ)) ↔
      idx ∈ ([6, 7, 9, 10, 12, 14, 16] : List ℕ) := by
    simp only [List.mem_cons, List.not_mem_nil, or_false]
    omega
  have habs := hbase.trans hmem2
  refine ⟨hbase, habs, ?_, ?_, ?_⟩
  · intro hlt
    cases hval : EquatorialSchedule.default.is_smol_smonth idx
    · rfl
    · exfalso
      obtain ⟨h6, _⟩ := hbase.mp hval
      omega
  · intro hgt
    cases hval : EquatorialSchedule.default.is_smol_smonth idx
    · rfl
    · exfalso
      have hm := habs.mp hval
      simp only [List.mem_cons, List.not_mem_nil, or_false] at hm
      omega
  · unfold smonthLength
    by_cases hm : idx ∈ ([6, 7, 9, 10, 12, 14, 16] : List ℕ)
    · rw [if_pos (habs.mpr hm), if_pos hm]
    · rw [if_neg (fun hv => hm (habs.mp hv)), if_neg hm]

theorem smoital_claim_C5_witness :
    EquatorialSchedule.default.is_smol_smonth 5 = false ∧
      EquatorialSchedule.default.is_smol_smonth 17 = false :=
  ⟨(smoital_claim_C5 5).2.2.1 (by norm_num), (smoital_claim_C5 17).2.2.2.1 (by norm_num)⟩

/-- C6 (amended): day_of_year rejects exactly a mismatched year, a zero
day, or a day beyond the smonth's length; otherwise it returns the
cumulative sum plus day - 1 whenever that sum stays below 2^32 (on larger
smonths the u32 accumulator wraps and the mathematical sum cannot be
returned); timezone_offset_for_date is absent exactly when day_of_year is
and otherwise wraps the schedule query at the computed index. -/
theorem smoital_claim_C6 (Y : SmoitalYear) (date : SmoitalDate) :
    (Y.day_of_year date = none ↔
      (date.year ≠ Y.year ∨ date.day = 0 ∨
        smonthLength Y.schedule.is_smol_smonth date.smonth < date.day)) ∧
    (date.year = Y.year → date.day ≠ 0 →
      date.day ≤ smonthLength Y.schedule.is_smol_smonth date.smonth →
      daysBefore Y.schedule.is_smol_smonth date.smonth + (date.day - 1) < 2 ^ 32 →
      Y.day_of_year date =
        some (daysBefore Y.schedule.is_smol_smonth date.smonth + (date.day - 1))) ∧
    (Y.timezone_offset_for_date date = none ↔ Y.day_of_year date = none) ∧
    (∀ n : ℕ, Y.day_of_year date = some n →
      Y.timezone_offset_for_date date = some (Y.schedule.tz_offset n)) := by
  refine ⟨day_of_year_none_iff Y date, ?_, ?_, ?_⟩
  · intro h1 h2 h3 h4
    obtain ⟨dy, dm, dd⟩ := date
    exact day_of_year_mk_small Y dy dm dd h1 h2 h3 h4
  · unfold SmoitalYear.timezone_offset_for_date
    cases hdo : Y.day_of_year date
    · simp
    · simp
  · intro n hn
    unfold SmoitalYear.timezone_offset_for_date
    rw [hn]
    rfl

/-- C6 counterexample: at smonth 119304647 (day 1) the u32 day-index sum
wraps, so day_of_year returns Some 3, while the sum of get_smonth_length
over smonths 0..119304647 plus day - 1 is 4294967299 = 2^32 + 3 — not a
u32 value, so the code cannot return the claimed Some of the sum. -/
theorem smoital_claim_C6_counterexample :
    (SmoitalYear.mk 2030 EquatorialSchedule.default.toSchedule).day_of_year
      ⟨2030, 119304647, 1⟩ = some 3 ∧
    daysBefore EquatorialSchedule.default.is_smol_smonth 119304647 +
      ((⟨2030, 119304647, 1⟩ : SmoitalDate).day - 1) = 4294967299 ∧
    (3 : ℕ) ≠ 4294967299 := by
  refine ⟨Y0_wrap_day_of_year, ?_, by norm_num⟩
  rw [eq_default_daysBefore_closed 119304647 (by norm_num)]
  norm_num

theorem smoital_claim_C6_witness :
    (SmoitalYear.mk 2030 EquatorialSchedule.default.toSchedule).day_of_year
        ⟨2030, 0, 40⟩ = none :=
  (smoital_claim_C6 (SmoitalYear.mk 2030 EquatorialSchedule.default.toSchedule)
    ⟨2030, 0, 40⟩).1.mpr (Or.inr (Or.inr (by decide)))

/-- C7: for every day_of_year in [0, 667] both schedule variants return an
offset (no panic: every FixedOffset construction succeeds) whose magnitude
is strictly below 1440 minutes (86400 seconds). -/
theorem smoital_claim_C7 (y : ℤ) (q : ℚ) (d : ℕ) (_hd : d ≤ 667) :
    (∃ z : ℤ, EquatorialSchedule.default.get_timezone_offset d = some z ∧
      -86400 < z ∧ z < 86400) ∧
    (∃ z : ℤ, (HeuristicSchedule.new y q).get_timezone_offset d = some z ∧
      -86400 < z ∧ z < 86400) :=
  ⟨equatorial_total EquatorialSchedule.default d,
    heuristic_total (HeuristicSchedule.new y q) d⟩

theorem smoital_claim_C7_witness :
    (∃ z : ℤ, EquatorialSchedule.default.get_timezone_offset 667 = some z ∧
      -86400 < z ∧ z < 86400) ∧
    (∃ z : ℤ, (HeuristicSchedule.new 2030 0).get_timezone_offset 667 = some z ∧
      -86400 < z ∧ z < 86400) :=
  smoital_claim_C7 2030 0 667 (by norm_num)

/-- C8: round_40min rounds to the nearest multiple of 40, and wrap_24hr
lands in (-720, 720] while moving its input by an integer multiple of
1440. -/
theorem smoital_claim_C8 (x : ℚ) :
    round_40min x = rustRound (x / 40) * 40 ∧
    (-720 < wrap_24hr x ∧ wrap_24hr x ≤ 720) ∧
    ∃ k : ℤ, wrap_24hr x - x = 1440 * (k : ℚ) := by
  refine ⟨rfl, wrap_24hr_bounds x, ?_⟩
  obtain ⟨k, hk⟩ := wrap_24hr_congr x
  exact ⟨k, by rw [hk]; ring⟩

/-- C9: the heuristic variant's is_smol_smonth is constantly false, so its
derived smonth length is constantly 36. -/
theorem smoital_claim_C9 (h : HeuristicSchedule) (idx : ℕ) :
    h.toSchedule.is_smol_smonth idx = false ∧
      smonthLength h.toSchedule.is_smol_smonth idx = 36 :=
  ⟨rfl, rfl⟩

/-- C10 (amended): SmoitalDate::calculate_offset returns 760 - 40 * day
minutes east without panicking for every day at most 54, and for every day
in [55, 1789552] east_opt returns None so the unwrap panics; for larger
days i32 wrap-around can land back in range, so the claim's "every day of
55 or more panics" fails. -/
theorem smoital_claim_C10 (y : ℤ) (sm : ℕ) (d : ℕ) :
    (d ≤ 54 →
      (SmoitalDate.mk y sm d).calculate_offset = some ((760 - 40 * (d : ℤ)) * 60)) ∧
    (55 ≤ d → d ≤ 1789552 →
      (SmoitalDate.mk y sm d).calculate_offset = none) := by
  constructor
  · intro hd
    have hdZ : (d : ℤ) ≤ 54 := by exact_mod_cast hd
    unfold SmoitalDate.calculate_offset
    dsimp only
    rw [wrap32_eq_self ((d : ℕ) : ℤ) (by omega) (by omega)]
    rw [wrap32_eq_self (40 * (d : ℤ)) (by omega) (by omega)]
    rw [wrap32_eq_self (760 - 40 * (d : ℤ)) (by omega) (by omega)]
    rw [wrap32_eq_self ((760 - 40 * (d : ℤ)) * 60) (by omega) (by omega)]
    exact east_opt_eq_some _ (by omega) (by omega)
  · intro h55 hub
    have hdZ1 : 55 ≤ (d : ℤ) := by exact_mod_cast h55
    have hdZ2 : (d : ℤ) ≤ 1789552 := by exact_mod_cast hub
    unfold SmoitalDate.calculate_offset
    dsimp only
    rw [wrap32_eq_self ((d : ℕ) : ℤ) (by omega) (by omega)]
    rw [wrap32_eq_self (40 * (d : ℤ)) (by omega) (by omega)]
    rw [wrap32_eq_self (760 - 40 * (d : ℤ)) (by omega) (by omega)]
    rcases le_or_lt (-(2 ^ 31) : ℤ) ((760 - 40 * (d : ℤ)) * 60) with hcase | hcase
    · rw [wrap32_eq_self ((760 - 40 * (d : ℤ)) * 60) hcase (by omega)]
      unfold east_opt
      rw [if_neg (by omega)]
    · have hw : wrap32 ((760 - 40 * (d : ℤ)) * 60) =
          (760 - 40 * (d : ℤ)) * 60 + 2 ^ 32 := by
        unfold wrap32
        omega
      rw [hw]
      unfold east_opt
      rw [if_neg (by omega)]

theorem smoital_claim_C10_witness :
    (SmoitalDate.mk 2030 0 37).calculate_offset = some (-43200) ∧
      (SmoitalDate.mk 2030 0 55).calculate_offset = none := by
  constructor
  · have h := (smoital_claim_C10 2030 0 37).1 (by norm_num)
    rw [h]
    norm_num
  · exact (smoital_claim_C10 2030 0 55).2 (by norm_num) (by norm_num)

/-- C10 counterexample: at day 1789553 the i32 computation wraps back into
FixedOffset's accepted range, so east_opt succeeds and nothing panics —
refuting "for every day value of 55 or more the unwrap panics". -/
theorem smoital_claim_C10_counterexample :
    55 ≤ 1789553 ∧ (SmoitalDate.mk 2030 0 1789553).calculate_offset = some 85696 := by
  constructor
  · norm_num
  · decide
